import Mathlib

/-!
Verification of the face identity resolution engine
(`FaceRecognition/python/face_recognition_service.py` and
`FaceRecognition/python/realtime_face_recognition.py`).

Shallow embedding conventions:
* Feature vectors (`face_recognition` 128-d encodings) are opaque values,
  modelled as `List ℚ`; the library's Euclidean metric is an opaque
  distance oracle carried in the environment.
* Floating-point arithmetic is modelled over `ℚ` (exact arithmetic on the
  literals `0.5`, `0.6`, `100` that the source uses).
* The filesystem, image decoding, face detection and the LBPH predictor
  are oracles in an `Env` record: the Python code only branches on their
  results, which is exactly what the embedding reproduces.
* Python exceptions that the source catches per record are modelled by
  `Option` results of the corresponding oracle.
-/

/-- A face feature vector (embedding backend). Opaque to the engine. -/
abbrev Enc := List ℚ

/-- `(top, right, bottom, left)` face location, as produced by
`face_recognition.face_locations` and echoed into results. -/
abbrev Loc := Int × Int × Int × Int

/-- An OpenCV detection rectangle `(x, y, w, h)`. -/
structure Rect where
  x : Int
  y : Int
  w : Int
  h : Int
deriving DecidableEq, Repr

/-- The identity metadata stored in `student_data[label_id]`:
`{'id': ..., 'name': ..., 'department': ...}`. -/
structure Student where
  sid : String
  name : String
  department : String
deriving DecidableEq, Repr

/-- One entry of the `students_data` batch given to `train_from_database`.
A missing/`None` `imagePath` is modelled by the empty string (both are
falsy in the `if not image_path` test). -/
structure TrainingRecord where
  rid : String
  name : String
  department : String
  labelId : Int
  imagePath : String
deriving DecidableEq, Repr

/-- One face match, as appended to the `results`/`faces` JSON arrays. -/
structure MatchResult where
  labelId : Int
  name : String
  department : String
  confidence : ℚ
  location : Loc
deriving DecidableEq, Repr

/-- Result dictionary of `recognize_face` /
`_recognize_with_face_recognition` / `_recognize_with_opencv`. -/
structure RecognizeResult where
  success : Bool
  message : Option String
  results : Option (List MatchResult)
deriving DecidableEq, Repr

/-- Result dictionary of `recognize_frame` (streaming form): `faces`
instead of `results`, and zero faces is a success. -/
structure FrameResult where
  success : Bool
  message : Option String
  faces : Option (List MatchResult)
deriving DecidableEq, Repr

/-- Result dictionary of `train_from_database`. -/
structure TrainResult where
  success : Bool
  message : String
  trainedCount : Option Nat
deriving DecidableEq, Repr

/-- `_normalize_path`: backslashes become forward slashes (character by
character, over the string's character list); the falsy ("") case
returns the input unchanged, which the map also does. -/
def normalizePath (p : String) : String :=
  ⟨p.data.map (fun c => if c = '\\' then '/' else c)⟩

/-- Python `dict.get` over the `student_data` mapping, modelled as an
association list with unique keys. -/
def lookupStudent (data : List (Int × Student)) (l : Int) : Option Student :=
  match data.find? (fun p => p.1 == l) with
  | some p => some p.2
  | none => none

/-- `self.student_data[label_id] = {...}`: insert or overwrite. -/
def upsertStudent (data : List (Int × Student)) (l : Int) (st : Student) :
    List (Int × Student) :=
  if (data.find? (fun p => p.1 == l)).isSome then
    data.map (fun p => if p.1 == l then (l, st) else p)
  else
    data ++ [(l, st)]

/-- `np.argmin`: index of the first occurrence of the minimum value.
Returns 0 on the empty list (where NumPy would raise; the source only
reaches it with a non-empty gallery). -/
def argminIdx : List ℚ → Nat
  | [] => 0
  | [_] => 0
  | d :: e :: rest =>
    let j := argminIdx (e :: rest)
    if (e :: rest).getD j 0 < d then j + 1 else 0

/-- `confidence = 1 - face_distances[best_match_index]` (line 281 of the
service, line 101 of the realtime script). No clamping is applied. -/
def frConfidence (d : ℚ) : ℚ := 1 - d

/-- `confidence_score = (100 - confidence) / 100.0` for the LBPH raw
score (line 353 of the service, line 166 of the realtime script). No
clamping is applied. -/
def lbphConfidence (raw : ℚ) : ℚ := (100 - raw) / 100

/-- `face_recognition.face_distance(known_encodings, q)`: the distance
from the query encoding to every enrolled encoding, in gallery order.
`dist` is the library's opaque metric. -/
def faceDistance (dist : Enc → Enc → ℚ) (known : List Enc) (q : Enc) : List ℚ :=
  known.map (fun k => dist k q)

/-- The embedding matcher of `face_recognition_service.py`
(lines 277-310), applied to one detected face: `matches` comes from
`compare_faces(..., tolerance=0.6)` so `matches[best]` is
`ds[best] ≤ 0.6`; accept only if that holds and `confidence > 0.5`;
on acceptance look the label up in `student_data`, falling back to the
Unknown result if the label is absent. -/
def matchFaceFR (ds : List ℚ) (knownLabels : List Int)
    (studentData : List (Int × Student)) (loc : Loc) : MatchResult :=
  let best := argminIdx ds
  let d := ds.getD best 0
  let confidence := frConfidence d
  if d ≤ 6/10 ∧ 1/2 < confidence then
    let labelId := knownLabels.getD best 0
    match lookupStudent studentData labelId with
    | some st => ⟨labelId, st.name, st.department, confidence, loc⟩
    | none => ⟨-1, "Unknown", "", confidence, loc⟩
  else
    ⟨-1, "Unknown", "", confidence, loc⟩

/-- The embedding matcher of `realtime_face_recognition.py`
(lines 89-121). It differs from the service variant only when the best
label is missing from `student_data`: `student_data.get(label_id, {})`
plus `student.get('name', 'Unknown')` keeps the raw `labelId` and uses
the fallback name, instead of the `-1`/Unknown record. -/
def matchFaceFRRealtime (ds : List ℚ) (knownLabels : List Int)
    (studentData : List (Int × Student)) (loc : Loc) : MatchResult :=
  let best := argminIdx ds
  let d := ds.getD best 0
  let confidence := frConfidence d
  if d ≤ 6/10 ∧ 1/2 < confidence then
    let labelId := knownLabels.getD best 0
    match lookupStudent studentData labelId with
    | some st => ⟨labelId, st.name, st.department, confidence, loc⟩
    | none => ⟨labelId, "Unknown", "", confidence, loc⟩
  else
    ⟨-1, "Unknown", "", confidence, loc⟩

/-- The LBPH matcher applied to one detected rectangle (service lines
350-371; the realtime variant lines 165-184 behaves identically because
the `in student_data` guard makes `student['name']` and
`student.get('name', 'Unknown')` coincide). `pred` is the recognizer's
`predict` output `(label, raw score)`; the echoed location is
`(y, x+w, y+h, x)`. -/
def matchFaceCV (pred : Int × ℚ) (r : Rect)
    (studentData : List (Int × Student)) : MatchResult :=
  let labelId := pred.1
  let conf := lbphConfidence pred.2
  let loc : Loc := (r.y, r.x + r.w, r.y + r.h, r.x)
  match lookupStudent studentData labelId with
  | some st =>
    if 1/2 < conf then ⟨labelId, st.name, st.department, conf, loc⟩
    else ⟨-1, "Unknown", "", conf, loc⟩
  | none => ⟨-1, "Unknown", "", conf, loc⟩

-- ### Basic facts about the argmin

theorem argminIdx_lt_length : ∀ (ds : List ℚ), ds ≠ [] → argminIdx ds < ds.length
  | [], h => absurd rfl h
  | [_], _ => by simp [argminIdx]
  | d :: e :: rest, _ => by
    have ih := argminIdx_lt_length (e :: rest) (by simp)
    simp only [argminIdx]
    split
    · simpa [List.length_cons] using Nat.succ_lt_succ ih
    · simp [List.length_cons]

theorem getD_argminIdx_le : ∀ (ds : List ℚ), ∀ x ∈ ds, ds.getD (argminIdx ds) 0 ≤ x
  | [], x, hx => by simp at hx
  | [a], x, hx => by
    simp only [List.mem_singleton] at hx
    simp [argminIdx, hx]
  | d :: e :: rest, x, hx => by
    have ih := getD_argminIdx_le (e :: rest)
    simp only [argminIdx]
    rcases List.mem_cons.mp hx with hxd | hxtail
    · subst hxd
      split
      · -- minimum of the tail is strictly below the head
        next hlt =>
        simpa using le_of_lt hlt
      · simp
    · split
      · next hlt =>
        simpa using ih x hxtail
      · next hge =>
        push_neg at hge
        simpa using le_trans hge (ih x hxtail)

theorem getD_argminIdx_mem (ds : List ℚ) (h : ds ≠ []) :
    ds.getD (argminIdx ds) 0 ∈ ds := by
  have hlt := argminIdx_lt_length ds h
  rw [List.getD_eq_getElem ds 0 hlt]
  exact List.getElem_mem hlt

/-- If `d` is the minimum value of `ds`, the matcher's indexed lookup
`ds[argmin ds]` equals `d`. -/
theorem getD_argminIdx_eq_min (ds : List ℚ) (d : ℚ) (hmem : d ∈ ds)
    (hmin : ∀ x ∈ ds, d ≤ x) : ds.getD (argminIdx ds) 0 = d := by
  have hne : ds ≠ [] := by
    intro h; subst h; simp at hmem
  exact le_antisymm (getD_argminIdx_le ds d hmem)
    (hmin _ (getD_argminIdx_mem ds hne))

-- ### Environment, process state, persisted store

/-- The external world: filesystem and opaque library behaviors. The
Python code only branches on these oracles' results.
`faceEncodings` is the training-time `load_image_file` + `face_encodings`
composite (`none` models the caught per-record exception);
`detectEncodings` is the recognition-time `face_locations` +
`face_encodings` composite; `dist` is the library metric used by
`face_distance`; `imreadOk` is `cv2.imread(...) is not None`;
`detectFaces` is the cascade's `detectMultiScale`; `predict` is the
trained LBPH recognizer's `predict`. -/
structure Env where
  fileExists : String → Bool
  faceEncodings : String → Option (List Enc)
  detectEncodings : String → List (Enc × Loc)
  dist : Enc → Enc → ℚ
  imreadOk : String → Bool
  detectFaces : String → List Rect
  predict : Rect → Int × ℚ

/-- The mutable fields of `FaceRecognitionService`: `known_encodings`,
`known_labels`, `student_data`, and whether `self.recognizer` is set
(the trained LBPH artifact is opaque, only its presence is branched on). -/
structure ServiceState where
  knownEncodings : List Enc
  knownLabels : List Int
  studentData : List (Int × Student)
  recognizer : Option Unit
deriving DecidableEq, Repr

/-- Fresh `FaceRecognitionService.__init__` state. -/
def initialState : ServiceState := ⟨[], [], [], none⟩

/-- Content of the `labels.pkl` file. The embedding trainer pickles
`{'labels': ..., 'student_data': ...}` while the OpenCV trainer pickles
the bare `label_to_student` dict; `_load_model`'s `data.get('labels', [])`
and `data.get('student_data', {})` yield empty values on the latter. -/
inductive LabelsPayload where
  | frFormat (labels : List Int) (studentData : List (Int × Student))
  | cvFormat (studentData : List (Int × Student))
deriving DecidableEq, Repr

/-- The persisted model directory: `face_recognizer.pkl` (opaque LBPH
artifact), `face_encodings.pkl`, `labels.pkl`; `none` = file absent. -/
structure Store where
  modelFile : Option Unit
  encodingsFile : Option (List Enc)
  labelsFile : Option LabelsPayload
deriving DecidableEq, Repr

/-- A model directory with none of the files present. -/
def emptyStore : Store := ⟨none, none, none⟩

/-- `_save_model` (service lines 378-390): pickle `known_encodings` to
`face_encodings.pkl`, then pickle labels + student data to `labels.pkl`.
Both writes are in place; there is no temporary file and no swap. -/
def saveModel (s : ServiceState) (st : Store) : Store :=
  { st with
      encodingsFile := some s.knownEncodings
      labelsFile := some (.frFormat s.knownLabels s.studentData) }

/-- How far `_save_model`'s two sequential writes got before an I/O
failure interrupted it (the `except` clause only logs to stderr). -/
inductive SaveMoment where
  | beforeAny
  | betweenWrites
  | completed
deriving DecidableEq, Repr

/-- `_save_model` interrupted at a given moment: none, one, or both of
the in-place writes have landed. `completed` agrees with `saveModel`. -/
def saveModelInterrupted (s : ServiceState) (st : Store) : SaveMoment → Store
  | .beforeAny => st
  | .betweenWrites => { st with encodingsFile := some s.knownEncodings }
  | .completed => saveModel s st

/-- `_load_model` (service lines 392-407): succeeds only when both
`face_encodings.pkl` and `labels.pkl` exist; it performs no consistency
check between the two beyond their joint existence. -/
def loadModel (st : Store) (s : ServiceState) : ServiceState × Bool :=
  match st.encodingsFile, st.labelsFile with
  | some encs, some payload =>
    let ld := match payload with
      | .frFormat ls sd => (ls, sd)
      | .cvFormat _ => ([], [])
    ({ s with knownEncodings := encs, knownLabels := ld.1, studentData := ld.2 }, true)
  | _, _ => (s, false)

-- ### Training pipeline

/-- "Use the first face found": `encodings[0]` guarded by
`len(encodings) > 0` (service lines 117-119). -/
def chosenFaceFR (encs : List Enc) : Option Enc := encs.head?

/-- `(x, y, w, h) ↦ w * h`, the key of the `max(faces, key=...)` call. -/
def area (r : Rect) : Int := r.w * r.h

/-- "Use largest face": Python `max(faces, key=lambda x: x[2] * x[3])`,
which keeps the first element among ties (service line 200). -/
def largestFace : List Rect → Option Rect
  | [] => none
  | r :: rs => some (rs.foldl (fun best c => if area best < area c then c else best) r)

/-- The face the OpenCV trainer enrolls from a detection list. -/
def chosenFaceCV (faces : List Rect) : Option Rect := largestFace faces

/-- One iteration of the `_train_with_face_recognition` loop (service
lines 101-132): skip when the (normalized) path is falsy or missing,
when loading/encoding raises, or when zero faces are found; otherwise
append the first encoding and the label and upsert the student record.
Returns the new state and this record's contribution to `trained_count`. -/
def trainRecordFR (env : Env) (s : ServiceState) (r : TrainingRecord) :
    ServiceState × Nat :=
  let p := normalizePath r.imagePath
  if p == "" || !env.fileExists p then (s, 0)
  else
    match env.faceEncodings p with
    | none => (s, 0)
    | some encs =>
      match chosenFaceFR encs with
      | none => (s, 0)
      | some e =>
        ({ s with
            knownEncodings := s.knownEncodings ++ [e]
            knownLabels := s.knownLabels ++ [r.labelId]
            studentData := upsertStudent s.studentData r.labelId ⟨r.rid, r.name, r.department⟩ },
          1)

/-- The whole `for student in students_data` loop of
`_train_with_face_recognition`, accumulating `trained_count`. -/
def trainLoopFR (env : Env) : ServiceState → List TrainingRecord → ServiceState × Nat
  | s, [] => (s, 0)
  | s, r :: rs =>
    let p1 := trainRecordFR env s r
    let p2 := trainLoopFR env p1.1 rs
    (p2.1, p1.2 + p2.2)

/-- Whether `_train_with_face_recognition` enrolls a given record:
non-empty existing path, extraction succeeds, at least one face. -/
def enrollableFR (env : Env) (r : TrainingRecord) : Bool :=
  let p := normalizePath r.imagePath
  !(p == "") && env.fileExists p &&
    (match env.faceEncodings p with
     | none => false
     | some encs => !encs.isEmpty)

/-- `_train_with_face_recognition` (service lines 97-144): run the loop;
zero enrollments fail the whole batch with no save; otherwise
`_save_model` runs and the count is reported. -/
def trainWithFR (env : Env) (s : ServiceState) (st : Store)
    (batch : List TrainingRecord) : ServiceState × Store × TrainResult :=
  let p := trainLoopFR env s batch
  if p.2 = 0 then
    (p.1, st, ⟨false, "No faces found in training images", none⟩)
  else
    (p.1, saveModel p.1 st,
      ⟨true, "Trained " ++ toString p.2 ++ " faces successfully", some p.2⟩)

/-- One iteration of the `_train_with_opencv` loop (service lines
164-215): skip on falsy/missing path, unreadable image, or zero detected
faces; otherwise crop the *largest* face (modelled by its rectangle,
since the resized grayscale patch is opaque) into `images`/`labels` and
upsert `label_to_student`. -/
def trainRecordCV (env : Env) (acc : List (Rect × Int) × List (Int × Student))
    (r : TrainingRecord) : List (Rect × Int) × List (Int × Student) :=
  let p := normalizePath r.imagePath
  if p == "" || !env.fileExists p then acc
  else if !env.imreadOk p then acc
  else
    match chosenFaceCV (env.detectFaces p) with
    | none => acc
    | some face =>
      (acc.1 ++ [(face, r.labelId)],
        upsertStudent acc.2 r.labelId ⟨r.rid, r.name, r.department⟩)

/-- The accumulated `images`/`labels` + `label_to_student` of the
`_train_with_opencv` loop. -/
def trainImagesCV (env : Env) (batch : List TrainingRecord) :
    List (Rect × Int) × List (Int × Student) :=
  batch.foldl (trainRecordCV env) ([], [])

/-- The "face module missing" message of `_train_with_opencv`. -/
def cvUnavailableMsg : String :=
  "OpenCV face module not available. Please install opencv-contrib-python: pip install opencv-contrib-python"

/-- The remediation text `train_from_database` substitutes when the
OpenCV fallback failed for lack of libraries (service lines 74-80). -/
def optionsMsg : String :=
  "Python face recognition libraries not installed.\nOptions:\n1. Install face-recognition (recommended): pip install face-recognition\n2. Install opencv-contrib-python: pip install opencv-contrib-python\n3. Use Java implementation: /api/training/train?usePython=java"

/-- `_train_with_opencv` (service lines 146-239). `cvFaceAvailable`
models the `from cv2 import face` probe. On success the trained LBPH
artifact is saved to `face_recognizer.pkl`, `self.recognizer` and
`self.student_data` are set, and the bare `label_to_student` dict is
pickled to `labels.pkl`. -/
def trainWithOpenCV (cvFaceAvailable : Bool) (env : Env) (s : ServiceState)
    (st : Store) (batch : List TrainingRecord) :
    ServiceState × Store × TrainResult :=
  if !cvFaceAvailable then (s, st, ⟨false, cvUnavailableMsg, none⟩)
  else
    let acc := trainImagesCV env batch
    if acc.1.isEmpty then
      (s, st, ⟨false, "No faces found in training images", none⟩)
    else
      ({ s with recognizer := some (), studentData := acc.2 },
        { st with modelFile := some (), labelsFile := some (.cvFormat acc.2) },
        ⟨true, "Trained " ++ toString acc.1.length ++ " faces successfully",
          some acc.1.length⟩)

/-- `self.known_encodings = []`, `self.known_labels = []`,
`self.student_data = {}` (service lines 61-63). `self.recognizer` is
not touched. -/
def clearGallery (s : ServiceState) : ServiceState :=
  { s with knownEncodings := [], knownLabels := [], studentData := [] }

/-- `train_from_database` (service lines 52-95): clear the in-memory
gallery, then dispatch on `FACE_RECOGNITION_AVAILABLE`; in the fallback
branch, a failure whose message reports missing libraries is rewritten
to the remediation text (the `"not available" in error_msg.lower()`
test, which among the model's producible messages matches exactly
`cvUnavailableMsg`). -/
def trainFromDatabase (fr cvFaceAvailable : Bool) (env : Env)
    (s : ServiceState) (st : Store) (batch : List TrainingRecord) :
    ServiceState × Store × TrainResult :=
  let s0 := clearGallery s
  if fr then trainWithFR env s0 st batch
  else
    let out := trainWithOpenCV cvFaceAvailable env s0 st batch
    if !out.2.2.success && out.2.2.message == cvUnavailableMsg then
      (out.1, out.2.1, { out.2.2 with message := optionsMsg })
    else out

-- ### Recognition pipeline

/-- `_recognize_with_face_recognition` (service lines 263-315): detect
and encode all faces; zero faces is the "No face detected" failure;
otherwise match every face (in detection order) against the gallery. -/
def recognizeWithFR (env : Env) (s : ServiceState) (imagePath : String) :
    RecognizeResult :=
  let faces := env.detectEncodings imagePath
  if faces.isEmpty then ⟨false, some "No face detected", none⟩
  else
    ⟨true, none, some (faces.map fun f =>
      matchFaceFR (faceDistance env.dist s.knownEncodings f.1)
        s.knownLabels s.studentData f.2)⟩

/-- `_recognize_with_opencv` (service lines 317-376), with the cascade
assumed loadable (its absence raises inside the caught `try`). -/
def recognizeWithCV (env : Env) (s : ServiceState) (imagePath : String) :
    RecognizeResult :=
  if !env.imreadOk imagePath then ⟨false, some "Could not load image", none⟩
  else
    let rects := env.detectFaces imagePath
    if rects.isEmpty then ⟨false, some "No face detected", none⟩
    else
      ⟨true, none, some (rects.map fun r =>
        matchFaceCV (env.predict r) r s.studentData)⟩

/-- `recognize_face` (service lines 241-261): missing file fails fast;
the embedding branch runs iff the library is available *and* the
in-memory encodings list is non-empty; else the classifier branch iff
`self.recognizer` is set; else "Model not trained". -/
def recognizeFace (fr : Bool) (env : Env) (s : ServiceState)
    (imagePath : String) : RecognizeResult :=
  if !env.fileExists imagePath then ⟨false, some "Image file not found", none⟩
  else if fr && !s.knownEncodings.isEmpty then recognizeWithFR env s imagePath
  else if s.recognizer.isSome then recognizeWithCV env s imagePath
  else ⟨false, some "Model not trained", none⟩

/-- `RealTimeRecognition._recognize_with_face_recognition` (realtime
lines 78-126): zero faces is a *success* with an empty `faces` list. -/
def recognizeFrameFR (env : Env) (s : ServiceState) (framePath : String) :
    FrameResult :=
  let faces := env.detectEncodings framePath
  if faces.isEmpty then ⟨true, none, some []⟩
  else
    ⟨true, none, some (faces.map fun f =>
      matchFaceFRRealtime (faceDistance env.dist s.knownEncodings f.1)
        s.knownLabels s.studentData f.2)⟩

/-- `RealTimeRecognition._recognize_with_opencv` (realtime lines
128-189): unreadable image and missing cascade fail; zero detected
faces is a success with an empty list. -/
def recognizeFrameCV (cascadeFound : Bool) (env : Env) (s : ServiceState)
    (framePath : String) : FrameResult :=
  if !env.imreadOk framePath then ⟨false, some "Could not load image", none⟩
  else if !cascadeFound then ⟨false, some "Cascade not found", none⟩
  else
    let rects := env.detectFaces framePath
    if rects.isEmpty then ⟨true, none, some []⟩
    else
      ⟨true, none, some (rects.map fun r =>
        matchFaceCV (env.predict r) r s.studentData)⟩

-- ### Process-lifetime behavior

/-- A public operation of one service process. -/
inductive Op where
  | trainOp (batch : List TrainingRecord)
  | recognizeOp (imagePath : String)
deriving DecidableEq, Repr

/-- Which implementation branch a public operation ended up in. -/
inductive Branch where
  | trainFR
  | trainCV
  | recogFR
  | recogCV
  | notTrained
  | imgMissing
deriving DecidableEq, Repr

/-- One public call: `train_from_database` mutates state and store;
`recognize_face` reads them. `fr` is the module-level
`FACE_RECOGNITION_AVAILABLE` constant, fixed at import time. -/
def step (fr cvFaceAvailable : Bool) (env : Env) (ps : ServiceState × Store)
    (op : Op) : (ServiceState × Store) × Branch :=
  match op with
  | .trainOp batch =>
    let out := trainFromDatabase fr cvFaceAvailable env ps.1 ps.2 batch
    ((out.1, out.2.1), if fr then .trainFR else .trainCV)
  | .recognizeOp p =>
    (ps,
      if !env.fileExists p then .imgMissing
      else if fr && !ps.1.knownEncodings.isEmpty then .recogFR
      else if ps.1.recognizer.isSome then .recogCV
      else .notTrained)

/-- A whole process lifetime: the trace of branches taken. -/
def runOps (fr cvFaceAvailable : Bool) (env : Env) :
    ServiceState × Store → List Op → (ServiceState × Store) × List Branch
  | ps, [] => (ps, [])
  | ps, op :: ops =>
    let out := step fr cvFaceAvailable env ps op
    let rest := runOps fr cvFaceAvailable env out.1 ops
    (rest.1, out.2 :: rest.2)

-- ### Training-loop lemmas

theorem trainRecordFR_count (env : Env) (s : ServiceState) (r : TrainingRecord) :
    (trainRecordFR env s r).2 = if enrollableFR env r then 1 else 0 := by
  by_cases hp : normalizePath r.imagePath = ""
  · simp [trainRecordFR, enrollableFR, hp]
  · by_cases hfe : env.fileExists (normalizePath r.imagePath)
    · rcases henc : env.faceEncodings (normalizePath r.imagePath) with _ | encs
      · simp [trainRecordFR, enrollableFR, hp, hfe, henc]
      · cases encs <;> simp [trainRecordFR, enrollableFR, chosenFaceFR, hp, hfe, henc]
    · simp [trainRecordFR, enrollableFR, hp, hfe]

theorem trainRecordFR_skip (env : Env) (s : ServiceState) (r : TrainingRecord)
    (h : enrollableFR env r = false) : (trainRecordFR env s r).1 = s := by
  simp only [trainRecordFR, enrollableFR, chosenFaceFR] at h ⊢
  cases hp : (normalizePath r.imagePath == "")
  · cases hfe : env.fileExists (normalizePath r.imagePath)
    · simp [hp, hfe]
    · cases henc : env.faceEncodings (normalizePath r.imagePath)
      · simp [hp, hfe, henc]
      · next encs =>
        cases encs
        · simp [hp, hfe, henc]
        · simp [hp, hfe, henc] at h
  · simp [hp]

theorem trainRecordFR_recognizer (env : Env) (s : ServiceState)
    (r : TrainingRecord) : (trainRecordFR env s r).1.recognizer = s.recognizer := by
  simp only [trainRecordFR]
  split
  · rfl
  · split
    · rfl
    · split
      · rfl
      · rfl

theorem trainLoopFR_count (env : Env) : ∀ (batch : List TrainingRecord)
    (s : ServiceState), (trainLoopFR env s batch).2 = batch.countP (enrollableFR env)
  | [], s => by simp [trainLoopFR]
  | r :: rs, s => by
    simp only [trainLoopFR, List.countP_cons]
    rw [trainLoopFR_count env rs, trainRecordFR_count]
    cases h : enrollableFR env r <;> simp [h, Nat.add_comm]

theorem trainLoopFR_skipAll (env : Env) : ∀ (batch : List TrainingRecord)
    (s : ServiceState), (∀ r ∈ batch, enrollableFR env r = false) →
    (trainLoopFR env s batch).1 = s
  | [], s, _ => rfl
  | r :: rs, s, h => by
    simp only [trainLoopFR]
    rw [trainRecordFR_skip env s r (h r (by simp))]
    exact trainLoopFR_skipAll env rs s (fun x hx => h x (by simp [hx]))

theorem trainLoopFR_recognizer (env : Env) : ∀ (batch : List TrainingRecord)
    (s : ServiceState), (trainLoopFR env s batch).1.recognizer = s.recognizer
  | [], _ => rfl
  | r :: rs, s => by
    simp only [trainLoopFR]
    rw [trainLoopFR_recognizer env rs, trainRecordFR_recognizer]

-- ### Largest-face lemmas

theorem foldl_largest_spec : ∀ (cs : List Rect) (b : Rect),
    (cs.foldl (fun best c => if area best < area c then c else best) b ∈ b :: cs) ∧
    area b ≤ area (cs.foldl (fun best c => if area best < area c then c else best) b) ∧
    ∀ f ∈ cs, area f ≤ area (cs.foldl (fun best c => if area best < area c then c else best) b)
  | [], b => by simp
  | c :: cs, b => by
    by_cases hc : area b < area c
    · obtain ⟨hmem, hb, hall⟩ := foldl_largest_spec cs c
      simp only [List.foldl_cons, if_pos hc]
      refine ⟨List.mem_cons_of_mem b hmem, le_trans (le_of_lt hc) hb, ?_⟩
      intro f hf
      rcases List.mem_cons.mp hf with h | h
      · subst h; exact hb
      · exact hall f h
    · obtain ⟨hmem, hb, hall⟩ := foldl_largest_spec cs b
      simp only [List.foldl_cons, if_neg hc]
      refine ⟨?_, hb, ?_⟩
      · rcases List.mem_cons.mp hmem with h | h
        · simp [h]
        · simp [List.mem_cons, h]
      · intro f hf
        rcases List.mem_cons.mp hf with h | h
        · subst h; exact le_trans (le_of_not_lt hc) hb
        · exact hall f h

theorem largestFace_spec (b : Rect) (cs : List Rect) :
    ∃ g, largestFace (b :: cs) = some g ∧ g ∈ b :: cs ∧
      ∀ f ∈ b :: cs, area f ≤ area g := by
  obtain ⟨hmem, hb, hall⟩ := foldl_largest_spec cs b
  refine ⟨_, rfl, hmem, ?_⟩
  intro f hf
  rcases List.mem_cons.mp hf with h | h
  · subst h; exact hb
  · exact hall f h

-- ### Matcher lemmas

theorem matchFaceFR_confidence (ds : List ℚ) (labels : List Int)
    (data : List (Int × Student)) (loc : Loc) :
    (matchFaceFR ds labels data loc).confidence =
      frConfidence (ds.getD (argminIdx ds) 0) := by
  simp only [matchFaceFR]
  split
  · split <;> rfl
  · rfl

theorem matchFaceFR_accept (ds : List ℚ) (labels : List Int)
    (data : List (Int × Student)) (loc : Loc) (st : Student)
    (hacc : ds.getD (argminIdx ds) 0 ≤ 6/10 ∧
      1/2 < frConfidence (ds.getD (argminIdx ds) 0))
    (hst : lookupStudent data (labels.getD (argminIdx ds) 0) = some st) :
    matchFaceFR ds labels data loc =
      ⟨labels.getD (argminIdx ds) 0, st.name, st.department,
        frConfidence (ds.getD (argminIdx ds) 0), loc⟩ := by
  simp only [matchFaceFR, if_pos hacc, hst]

theorem matchFaceFR_reject (ds : List ℚ) (labels : List Int)
    (data : List (Int × Student)) (loc : Loc)
    (hrej : ¬(ds.getD (argminIdx ds) 0 ≤ 6/10 ∧
      1/2 < frConfidence (ds.getD (argminIdx ds) 0))) :
    matchFaceFR ds labels data loc =
      ⟨-1, "Unknown", "", frConfidence (ds.getD (argminIdx ds) 0), loc⟩ := by
  simp only [matchFaceFR, if_neg hrej]

theorem matchFaceFRRealtime_eq_of_found (ds : List ℚ) (labels : List Int)
    (data : List (Int × Student)) (loc : Loc)
    (hfound : (lookupStudent data (labels.getD (argminIdx ds) 0)).isSome = true) :
    matchFaceFRRealtime ds labels data loc = matchFaceFR ds labels data loc := by
  obtain ⟨st, hst⟩ := Option.isSome_iff_exists.mp hfound
  simp only [matchFaceFRRealtime, matchFaceFR]
  split
  · rw [hst]
  · rfl

/-- The label the matcher looks up is one of the enrolled labels. -/
theorem bestLabel_mem (ds : List ℚ) (labels : List Int)
    (hne : ds ≠ []) (hlen : ds.length = labels.length) :
    labels.getD (argminIdx ds) 0 ∈ labels := by
  have hbest : argminIdx ds < labels.length := hlen ▸ argminIdx_lt_length ds hne
  rw [List.getD_eq_getElem _ _ hbest]
  exact List.getElem_mem hbest

/-- C1: against a non-empty well-formed gallery, the embedding matcher
accepts the nearest label (returning its name and department) if and
only if the minimum distance is ≤ 0.6 and the derived confidence
exceeds 0.5; in every other case it returns labelId −1 and name
"Unknown", still carrying the computed confidence; and the two
embedding-variant implementations agree. -/
theorem C1_embedding_acceptance_iff (ds : List ℚ) (labels : List Int)
    (data : List (Int × Student)) (loc : Loc) (d : ℚ)
    (hne : ds ≠ []) (hlen : ds.length = labels.length)
    (hwf : ∀ l ∈ labels, (lookupStudent data l).isSome = true)
    (hmem : d ∈ ds) (hmin : ∀ x ∈ ds, d ≤ x) :
    ((d ≤ 6/10 ∧ 1/2 < frConfidence d) →
      ∃ st, lookupStudent data (labels.getD (argminIdx ds) 0) = some st ∧
        matchFaceFR ds labels data loc =
          ⟨labels.getD (argminIdx ds) 0, st.name, st.department,
            frConfidence d, loc⟩) ∧
    (¬(d ≤ 6/10 ∧ 1/2 < frConfidence d) →
      matchFaceFR ds labels data loc =
        ⟨-1, "Unknown", "", frConfidence d, loc⟩) ∧
    matchFaceFRRealtime ds labels data loc = matchFaceFR ds labels data loc := by
  have hd : ds.getD (argminIdx ds) 0 = d := getD_argminIdx_eq_min ds d hmem hmin
  have hsome := hwf _ (bestLabel_mem ds labels hne hlen)
  obtain ⟨st, hst⟩ := Option.isSome_iff_exists.mp hsome
  refine ⟨?_, ?_, ?_⟩
  · intro hacc
    exact ⟨st, hst, by rw [matchFaceFR_accept ds labels data loc st (hd ▸ hacc) hst, hd]⟩
  · intro hrej
    rw [matchFaceFR_reject ds labels data loc (by rw [hd]; exact hrej), hd]
  · exact matchFaceFRRealtime_eq_of_found ds labels data loc hsome

theorem C1_embedding_acceptance_iff_witness :
    ((3:ℚ)/10 ≤ 6/10 ∧ 1/2 < frConfidence ((3:ℚ)/10)) ∧
    matchFaceFR [(3:ℚ)/10] [1] [(1, ⟨"s1", "Alice", "CS"⟩)] (0, 0, 0, 0) =
      ⟨1, "Alice", "CS", frConfidence ((3:ℚ)/10), (0, 0, 0, 0)⟩ := by
  have h := C1_embedding_acceptance_iff [(3:ℚ)/10] [1]
    [(1, ⟨"s1", "Alice", "CS"⟩)] (0, 0, 0, 0) (3/10)
    (by simp) (by simp) (by decide) (by simp) (by simp)
  have hacc : (3:ℚ)/10 ≤ 6/10 ∧ 1/2 < frConfidence ((3:ℚ)/10) := by
    constructor <;> norm_num [frConfidence]
  obtain ⟨st, hst, heq⟩ := h.1 hacc
  have hkey : ([1] : List Int).getD (argminIdx [(3:ℚ)/10]) 0 = 1 := rfl
  rw [hkey] at hst heq
  have hlook : lookupStudent [(1, ⟨"s1", "Alice", "CS"⟩)] 1 =
      some ⟨"s1", "Alice", "CS"⟩ := by decide
  rw [hlook] at hst
  obtain rfl : st = ⟨"s1", "Alice", "CS"⟩ := (Option.some_inj.mp hst).symm
  exact ⟨hacc, heq⟩

/-- C5: for a fixed gallery, the returned confidence is the
deterministic function `1 − d` of the minimum distance `d` and strictly
decreases in `d`; at `d = 0` the confidence is exactly 1 and the
nearest enrolled label is accepted; for every `d ≥ 0.6` the result is
labelId −1 regardless of the confidence value. -/
theorem C5_matcher_determinism (ds : List ℚ) (labels : List Int)
    (data : List (Int × Student)) (loc : Loc) (d : ℚ)
    (hne : ds ≠ []) (hlen : ds.length = labels.length)
    (hwf : ∀ l ∈ labels, (lookupStudent data l).isSome = true)
    (hmem : d ∈ ds) (hmin : ∀ x ∈ ds, d ≤ x) :
    (matchFaceFR ds labels data loc).confidence = frConfidence d ∧
    (∀ d1 d2 : ℚ, d1 < d2 → frConfidence d2 < frConfidence d1) ∧
    (d = 0 → (matchFaceFR ds labels data loc).confidence = 1 ∧
      (matchFaceFR ds labels data loc).labelId =
        labels.getD (argminIdx ds) 0) ∧
    (6/10 ≤ d → (matchFaceFR ds labels data loc).labelId = -1) := by
  have hd : ds.getD (argminIdx ds) 0 = d := getD_argminIdx_eq_min ds d hmem hmin
  have hsome := hwf _ (bestLabel_mem ds labels hne hlen)
  obtain ⟨st, hst⟩ := Option.isSome_iff_exists.mp hsome
  refine ⟨by rw [matchFaceFR_confidence, hd], ?_, ?_, ?_⟩
  · intro d1 d2 h12
    simp only [frConfidence]
    linarith
  · intro h0
    have hacc : ds.getD (argminIdx ds) 0 ≤ 6/10 ∧
        1/2 < frConfidence (ds.getD (argminIdx ds) 0) := by
      rw [hd, h0]
      constructor <;> norm_num [frConfidence]
    rw [matchFaceFR_accept ds labels data loc st hacc hst, hd, h0]
    exact ⟨by norm_num [frConfidence], rfl⟩
  · intro hband
    have hrej : ¬(ds.getD (argminIdx ds) 0 ≤ 6/10 ∧
        1/2 < frConfidence (ds.getD (argminIdx ds) 0)) := by
      rw [hd]
      rintro ⟨-, h2⟩
      simp only [frConfidence] at h2
      linarith
    rw [matchFaceFR_reject ds labels data loc hrej]

theorem C5_matcher_determinism_witness :
    (matchFaceFR [(0:ℚ)] [2] [(2, ⟨"s2", "Bob", "EE"⟩)] (0, 0, 0, 0)).confidence =
      frConfidence 0 ∧
    (matchFaceFR [(0:ℚ)] [2] [(2, ⟨"s2", "Bob", "EE"⟩)] (0, 0, 0, 0)).labelId = 2 := by
  have h := C5_matcher_determinism [(0:ℚ)] [2] [(2, ⟨"s2", "Bob", "EE"⟩)]
    (0, 0, 0, 0) 0 (by simp) (by simp) (by decide) (by simp) (by simp)
  obtain ⟨hconf, -, h0, -⟩ := h
  exact ⟨hconf, (h0 rfl).2⟩

-- ### Training-pipeline claims

/-- With the embedding library available, `train_from_database` is the
embedding trainer run on the cleared gallery. -/
theorem trainFromDatabase_fr (cvFaceAvailable : Bool) (env : Env)
    (s : ServiceState) (st : Store) (batch : List TrainingRecord) :
    trainFromDatabase true cvFaceAvailable env s st batch =
      trainWithFR env (clearGallery s) st batch := rfl

/-- C2: for every training batch with at least one enrollable record,
`train()` succeeds and reports a trained count equal to the number of
records whose (normalized, non-empty) image path exists, whose
extraction raises no error, and whose image contains at least one face. -/
theorem C2_train_success_count (env : Env) (s : ServiceState) (st : Store)
    (batch : List TrainingRecord)
    (h : 1 ≤ batch.countP (enrollableFR env)) :
    (trainFromDatabase true true env s st batch).2.2.success = true ∧
    (trainFromDatabase true true env s st batch).2.2.trainedCount =
      some (batch.countP (enrollableFR env)) := by
  have hcount := trainLoopFR_count env batch (clearGallery s)
  have hne : ¬(trainLoopFR env (clearGallery s) batch).2 = 0 := by omega
  rw [trainFromDatabase_fr]
  constructor
  · simp [trainWithFR, hne]
  · simp only [trainWithFR]
    rw [if_neg hne, hcount]

/-- Concrete environment for the witnesses: exactly one image
`img.jpg` exists and contains exactly one face. -/
def envGood : Env where
  fileExists := fun p => p == "img.jpg"
  faceEncodings := fun p => if p == "img.jpg" then some [[1]] else none
  detectEncodings := fun _ => []
  dist := fun _ _ => 0
  imreadOk := fun _ => false
  detectFaces := fun _ => []
  predict := fun _ => (0, 0)

/-- A record whose image exists and contains a face. -/
def recGood : TrainingRecord := ⟨"s1", "Alice", "CS", 1, "img.jpg"⟩

/-- A record whose image file does not exist. -/
def recBad : TrainingRecord := ⟨"s2", "Bob", "EE", 2, "missing.jpg"⟩

theorem C2_train_success_count_witness :
    1 ≤ [recGood].countP (enrollableFR envGood) ∧
    (trainFromDatabase true true envGood initialState emptyStore
      [recGood]).2.2.success = true ∧
    (trainFromDatabase true true envGood initialState emptyStore
      [recGood]).2.2.trainedCount = some ([recGood].countP (enrollableFR envGood)) := by
  have h := C2_train_success_count envGood initialState emptyStore [recGood]
    (by decide)
  exact ⟨by decide, h.1, h.2⟩

/-- C3: a batch in which no record is enrollable makes `train()` fail
with the "No faces found in training images" message, leaves the store
untouched (nothing is persisted), and — when the store was empty — a
fresh process (`__init__` state, even after an explicit `_load_model`)
still answers "Model not trained" to `recognize_face` on an existing
image. -/
theorem C3_zero_enrolled_failure (env : Env) (s : ServiceState) (st : Store)
    (batch : List TrainingRecord) (queryPath : String)
    (hzero : ∀ r ∈ batch, enrollableFR env r = false)
    (hq : env.fileExists queryPath = true) :
    (trainFromDatabase true true env s st batch).2.2 =
      ⟨false, "No faces found in training images", none⟩ ∧
    (trainFromDatabase true true env s st batch).2.1 = st ∧
    (st = emptyStore →
      (loadModel (trainFromDatabase true true env s st batch).2.1 initialState).2 = false ∧
      recognizeFace true env
        ((loadModel (trainFromDatabase true true env s st batch).2.1 initialState).1)
        queryPath = ⟨false, some "Model not trained", none⟩) := by
  have hcnt : batch.countP (enrollableFR env) = 0 := by
    apply List.countP_eq_zero.mpr
    intro r hr
    simp [hzero r hr]
  have hc : (trainLoopFR env (clearGallery s) batch).2 = 0 := by
    rw [trainLoopFR_count env batch (clearGallery s)]
    exact hcnt
  rw [trainFromDatabase_fr]
  refine ⟨by simp [trainWithFR, hc], by simp [trainWithFR, hc], ?_⟩
  rintro rfl
  have hstore : (trainWithFR env (clearGallery s) emptyStore batch).2.1 = emptyStore := by
    simp [trainWithFR, hc]
  rw [hstore]
  refine ⟨rfl, ?_⟩
  simp [recognizeFace, loadModel, emptyStore, hq, initialState]

theorem C3_zero_enrolled_failure_witness :
    (∀ r ∈ [recBad], enrollableFR envGood r = false) ∧
    (trainFromDatabase true true envGood initialState emptyStore [recBad]).2.2 =
      ⟨false, "No faces found in training images", none⟩ ∧
    recognizeFace true envGood
      ((loadModel (trainFromDatabase true true envGood initialState emptyStore
        [recBad]).2.1 initialState).1) "img.jpg" =
      ⟨false, some "Model not trained", none⟩ := by
  have h := C3_zero_enrolled_failure envGood initialState emptyStore [recBad]
    "img.jpg" (by decide) (by decide)
  exact ⟨by decide, h.1, (h.2.2 rfl).2⟩

/-- C10: `train_from_database` unconditionally clears the in-memory
gallery before processing (the run is identical from any prior
in-memory gallery), and after a failed run the in-memory gallery is
empty — not restored to its pre-call state. -/
theorem C10_train_clears_gallery (env : Env) (s : ServiceState) (st : Store)
    (batch : List TrainingRecord) :
    trainFromDatabase true true env s st batch =
      trainFromDatabase true true env (clearGallery s) st batch ∧
    ((trainFromDatabase true true env s st batch).2.2.success = false →
      (trainFromDatabase true true env s st batch).1.knownEncodings = [] ∧
      (trainFromDatabase true true env s st batch).1.knownLabels = [] ∧
      (trainFromDatabase true true env s st batch).1.studentData = []) := by
  refine ⟨rfl, ?_⟩
  intro hfail
  rw [trainFromDatabase_fr] at hfail ⊢
  by_cases hc : (trainLoopFR env (clearGallery s) batch).2 = 0
  · have hall : ∀ r ∈ batch, enrollableFR env r = false := by
      have hcnt : batch.countP (enrollableFR env) = 0 := by
        rw [← trainLoopFR_count env batch (clearGallery s)]
        exact hc
      intro r hr
      have := List.countP_eq_zero.mp hcnt r hr
      simpa using this
    have hstate := trainLoopFR_skipAll env batch (clearGallery s) hall
    simp only [trainWithFR, if_pos hc]
    rw [hstate]
    exact ⟨rfl, rfl, rfl⟩
  · have hsucc : (trainWithFR env (clearGallery s) st batch).2.2.success = true := by
      simp [trainWithFR, hc]
    rw [hsucc] at hfail
    cases hfail

theorem C10_train_clears_gallery_witness :
    (trainFromDatabase true true envGood
      ⟨[[5]], [9], [(9, ⟨"s9", "Eve", "ME"⟩)], none⟩ emptyStore
      [recBad]).2.2.success = false ∧
    (trainFromDatabase true true envGood
      ⟨[[5]], [9], [(9, ⟨"s9", "Eve", "ME"⟩)], none⟩ emptyStore
      [recBad]).1.knownEncodings = [] := by
  have h := C10_train_clears_gallery envGood
    ⟨[[5]], [9], [(9, ⟨"s9", "Eve", "ME"⟩)], none⟩ emptyStore [recBad]
  exact ⟨by decide, (h.2 (by decide)).1⟩

-- ### Confidence-range claim (C4)

theorem matchFaceCV_confidence (pred : Int × ℚ) (r : Rect)
    (data : List (Int × Student)) :
    (matchFaceCV pred r data).confidence = lbphConfidence pred.2 := by
  simp only [matchFaceCV]
  split
  · split <;> rfl
  · rfl

/-- C4 counterexample: neither confidence formula is clamped. At
distance 2 (≥ 0) the embedding matcher's result carries confidence
−1 < 0, and at raw score 150 (≥ 0) the classifier matcher's result
carries confidence −1/2 < 0 — both outside [0,1]. -/
theorem C4_confidence_range_counterexample :
    (0:ℚ) ≤ 2 ∧
    (matchFaceFR [(2:ℚ)] [7] [(7, ⟨"s7", "Carol", "CS"⟩)] (0, 0, 0, 0)).confidence < 0 ∧
    (0:ℚ) ≤ 150 ∧
    (matchFaceCV (7, 150) ⟨0, 0, 10, 10⟩ [(7, ⟨"s7", "Carol", "CS"⟩)]).confidence < 0 := by
  have hd : ([(2:ℚ)].getD (argminIdx [(2:ℚ)]) 0) = 2 := rfl
  have h1 := matchFaceFR_confidence [(2:ℚ)] [7] [(7, ⟨"s7", "Carol", "CS"⟩)] (0, 0, 0, 0)
  rw [hd] at h1
  have h2 := matchFaceCV_confidence (7, 150) ⟨0, 0, 10, 10⟩ [(7, ⟨"s7", "Carol", "CS"⟩)]
  refine ⟨by norm_num, ?_, by norm_num, ?_⟩
  · rw [h1]
    norm_num [frConfidence]
  · rw [h2]
    norm_num [lbphConfidence]

/-- C4 amended: both confidences are computed with no clamping. The
embedding result carries exactly `1 − d` for the minimum distance `d`,
which for `d ≥ 0` is at most 1 but non-negative only when `d ≤ 1`; the
classifier result carries exactly `(100 − raw)/100`, at most 1 for
`raw ≥ 0` but non-negative only when `raw ≤ 100`. -/
theorem C4_confidence_unclamped (ds : List ℚ) (labels : List Int)
    (data : List (Int × Student)) (loc : Loc) (d raw : ℚ) (l : Int) (r : Rect)
    (hmem : d ∈ ds) (hmin : ∀ x ∈ ds, d ≤ x)
    (hd : 0 ≤ d) (hraw : 0 ≤ raw) :
    (matchFaceFR ds labels data loc).confidence = frConfidence d ∧
    frConfidence d ≤ 1 ∧ (0 ≤ frConfidence d ↔ d ≤ 1) ∧
    (matchFaceCV (l, raw) r data).confidence = lbphConfidence raw ∧
    lbphConfidence raw ≤ 1 ∧ (0 ≤ lbphConfidence raw ↔ raw ≤ 100) := by
  have heq : ds.getD (argminIdx ds) 0 = d := getD_argminIdx_eq_min ds d hmem hmin
  refine ⟨by rw [matchFaceFR_confidence, heq], ?_, ?_,
    matchFaceCV_confidence (l, raw) r data, ?_, ?_⟩
  · simp only [frConfidence]
    linarith
  · simp only [frConfidence]
    constructor <;> intro <;> linarith
  · simp only [lbphConfidence]
    rw [div_le_one (by norm_num : (0:ℚ) < 100)]
    linarith
  · simp only [lbphConfidence]
    rw [le_div_iff₀ (by norm_num : (0:ℚ) < 100)]
    constructor <;> intro <;> linarith

theorem C4_confidence_unclamped_witness :
    (matchFaceFR [(1:ℚ)/4] [3] [(3, ⟨"s3", "Dan", "ME"⟩)] (0, 0, 0, 0)).confidence =
      frConfidence (1/4) ∧
    (matchFaceCV (3, 40) ⟨0, 0, 1, 1⟩ [(3, ⟨"s3", "Dan", "ME"⟩)]).confidence =
      lbphConfidence 40 := by
  have h := C4_confidence_unclamped [(1:ℚ)/4] [3] [(3, ⟨"s3", "Dan", "ME"⟩)]
    (0, 0, 0, 0) (1/4) 40 3 ⟨0, 0, 1, 1⟩ (by simp) (by simp)
    (by norm_num) (by norm_num)
  exact ⟨h.1, h.2.2.2.1⟩

-- ### First-face claim (C6)

/-- A small face listed first by the detector. -/
def faceSmall : Rect := ⟨0, 0, 10, 10⟩

/-- A larger face listed second by the detector. -/
def faceBig : Rect := ⟨50, 50, 20, 20⟩

/-- Environment where `two.jpg` exists, decodes, and the cascade finds
two faces (small one first); the embedding extractor finds two
encodings for it as well. -/
def envTwoFaces : Env where
  fileExists := fun p => p == "two.jpg"
  faceEncodings := fun p => if p == "two.jpg" then some [[7], [8]] else none
  detectEncodings := fun _ => []
  dist := fun _ _ => 0
  imreadOk := fun p => p == "two.jpg"
  detectFaces := fun p => if p == "two.jpg" then [faceSmall, faceBig] else []
  predict := fun _ => (0, 0)

/-- C6 counterexample: on an image whose detector output lists a small
face first and a bigger face second, the classifier training path
enrolls the bigger, *second* face — not the first located face as the
claim states for both paths. -/
theorem C6_first_face_counterexample :
    (trainImagesCV envTwoFaces [⟨"s1", "Alice", "CS", 1, "two.jpg"⟩]).1 =
      [(faceBig, 1)] ∧
    faceBig ≠ faceSmall ∧
    (envTwoFaces.detectFaces "two.jpg").head? = some faceSmall := by decide

/-- C6 amended: the embedding training path enrolls exactly the first
detected face; the classifier training path enrolls a detected face of
maximal area `w*h` (ignoring the rest), which need not be the first. -/
theorem C6_enrollment_face_choice (env : Env) (s : ServiceState)
    (r : TrainingRecord) (e : Enc) (es : List Enc) (f : Rect) (fs : List Rect)
    (acc : List (Rect × Int) × List (Int × Student))
    (hp : ¬(normalizePath r.imagePath = ""))
    (hex : env.fileExists (normalizePath r.imagePath) = true)
    (henc : env.faceEncodings (normalizePath r.imagePath) = some (e :: es))
    (himg : env.imreadOk (normalizePath r.imagePath) = true)
    (hdet : env.detectFaces (normalizePath r.imagePath) = f :: fs) :
    (trainRecordFR env s r).1.knownEncodings = s.knownEncodings ++ [e] ∧
    ∃ g, chosenFaceCV (f :: fs) = some g ∧ g ∈ f :: fs ∧
      (∀ x ∈ f :: fs, area x ≤ area g) ∧
      (trainRecordCV env acc r).1 = acc.1 ++ [(g, r.labelId)] := by
  obtain ⟨g, hg, hgmem, hgmax⟩ := largestFace_spec f fs
  refine ⟨?_, g, hg, hgmem, hgmax, ?_⟩
  · simp [trainRecordFR, chosenFaceFR, hp, hex, henc]
  · have hcf : chosenFaceCV (env.detectFaces (normalizePath r.imagePath)) = some g := by
      rw [hdet]
      exact hg
    simp [trainRecordCV, hp, hex, himg, hcf]

theorem C6_enrollment_face_choice_witness :
    (trainRecordFR envTwoFaces initialState
      ⟨"s1", "Alice", "CS", 1, "two.jpg"⟩).1.knownEncodings =
      initialState.knownEncodings ++ [[7]] ∧
    ∃ g, chosenFaceCV [faceSmall, faceBig] = some g ∧
      g ∈ [faceSmall, faceBig] ∧
      (∀ x ∈ [faceSmall, faceBig], area x ≤ area g) ∧
      (trainRecordCV envTwoFaces ([], [])
        ⟨"s1", "Alice", "CS", 1, "two.jpg"⟩).1 = [] ++ [(g, 1)] :=
  C6_enrollment_face_choice envTwoFaces initialState
    ⟨"s1", "Alice", "CS", 1, "two.jpg"⟩ [7] [[8]] faceSmall [faceBig] ([], [])
    (by decide) (by decide) (by decide) (by decide) (by decide)

-- ### Persistence claim (C7)

/-- A gallery with one enrolled identity. -/
def galleryA : ServiceState :=
  ⟨[[1]], [5], [(5, ⟨"s5", "Eve", "ME"⟩)], none⟩

/-- A gallery with two enrolled identities. -/
def galleryB : ServiceState :=
  ⟨[[2], [3]], [7, 8], [(7, ⟨"s7", "Finn", "CE"⟩), (8, ⟨"s8", "Gail", "EE"⟩)], none⟩

/-- C7 counterexample: `_save_model` performs two sequential in-place
writes with no temporary file and no swap. Saving the two-identity
gallery B over a store that previously held gallery A, interrupted
between the two writes, leaves a store that `_load_model` does NOT
treat as absent: it loads successfully with B's two encodings paired
with A's single label — a partially written, mutually inconsistent
gallery. -/
theorem C7_atomicity_counterexample :
    (loadModel (saveModelInterrupted galleryB
      (saveModelInterrupted galleryA emptyStore .completed) .betweenWrites)
      initialState).2 = true ∧
    (loadModel (saveModelInterrupted galleryB
      (saveModelInterrupted galleryA emptyStore .completed) .betweenWrites)
      initialState).1.knownEncodings.length = 2 ∧
    (loadModel (saveModelInterrupted galleryB
      (saveModelInterrupted galleryA emptyStore .completed) .betweenWrites)
      initialState).1.knownLabels.length = 1 := by decide

/-- C7 amended: `_save_model` writes `face_encodings.pkl` and then
`labels.pkl` in place (a completed interrupted save coincides with the
plain save — there is no temporary location or swap step). If a save of
gallery `b` is interrupted between the two writes over a store last
saved from gallery `a`, a subsequent `_load_model` succeeds (the store
is not treated as absent) and yields `b`'s encodings paired with `a`'s
labels and student data. -/
theorem C7_save_not_atomic (a b : ServiceState) (st : Store) (s : ServiceState) :
    saveModelInterrupted b st .completed = saveModel b st ∧
    (loadModel (saveModelInterrupted b (saveModel a st) .betweenWrites) s).2 = true ∧
    (loadModel (saveModelInterrupted b (saveModel a st) .betweenWrites) s).1.knownEncodings =
      b.knownEncodings ∧
    (loadModel (saveModelInterrupted b (saveModel a st) .betweenWrites) s).1.knownLabels =
      a.knownLabels ∧
    (loadModel (saveModelInterrupted b (saveModel a st) .betweenWrites) s).1.studentData =
      a.studentData :=
  ⟨rfl, rfl, rfl, rfl, rfl⟩

-- ### Backend-selection claim (C8)

theorem trainWithFR_recognizer (env : Env) (s : ServiceState) (st : Store)
    (batch : List TrainingRecord) :
    (trainWithFR env s st batch).1.recognizer = s.recognizer := by
  have h := trainLoopFR_recognizer env batch s
  simp only [trainWithFR]
  split
  · exact h
  · exact h

/-- With the embedding library available, no public call ever sets the
LBPH recognizer. -/
theorem step_recognizer_none (cvFaceAvailable : Bool) (env : Env)
    (ps : ServiceState × Store) (op : Op) (h : ps.1.recognizer = none) :
    (step true cvFaceAvailable env ps op).1.1.recognizer = none := by
  cases op with
  | trainOp batch =>
    show (trainFromDatabase true cvFaceAvailable env ps.1 ps.2 batch).1.recognizer = none
    rw [trainFromDatabase_fr, trainWithFR_recognizer]
    exact h
  | recognizeOp p => exact h

/-- C8: when the embedding library is available at process start, every
training call of the process dispatches to the embedding trainer and no
recognition call ever reaches the classifier branch, for every sequence
of public operations starting from a state whose LBPH recognizer is
unset (as `__init__` leaves it). -/
theorem C8_backend_exclusive (cvFaceAvailable : Bool) (env : Env) :
    ∀ (ops : List Op) (ps : ServiceState × Store), ps.1.recognizer = none →
    ∀ b ∈ (runOps true cvFaceAvailable env ps ops).2,
      b ≠ Branch.trainCV ∧ b ≠ Branch.recogCV
  | [], ps, _ => by simp [runOps]
  | op :: ops, ps, h => by
    intro b hb
    simp only [runOps, List.mem_cons] at hb
    rcases hb with hb | hb
    · subst hb
      cases op with
      | trainOp batch => exact ⟨by simp [step], by simp [step]⟩
      | recognizeOp p =>
        simp only [step, h, Option.isSome_none]
        constructor
        · split
          · simp
          · split
            · simp
            · simp
        · split
          · simp
          · split
            · simp
            · simp
    · exact C8_backend_exclusive cvFaceAvailable env ops _
        (step_recognizer_none cvFaceAvailable env ps op h) b hb

theorem C8_backend_exclusive_witness :
    Branch.recogFR ≠ Branch.trainCV ∧ Branch.recogFR ≠ Branch.recogCV :=
  C8_backend_exclusive true envGood
    [Op.trainOp [recGood], Op.recognizeOp "img.jpg"]
    (initialState, emptyStore) rfl Branch.recogFR (by decide)

-- ### Zero-faces claim (C9)

/-- C9: on a query image with zero detected faces, the single-image
form fails with "No face detected" while both streaming forms succeed
with an empty face list (all three are total functions returning a
structured result — no fault escapes). -/
theorem C9_zero_faces_forms (env : Env) (s : ServiceState) (p : String)
    (hnf : env.detectEncodings p = []) (hcv : env.detectFaces p = [])
    (himg : env.imreadOk p = true) :
    recognizeWithFR env s p = ⟨false, some "No face detected", none⟩ ∧
    recognizeFrameFR env s p = ⟨true, none, some []⟩ ∧
    recognizeFrameCV true env s p = ⟨true, none, some []⟩ := by
  refine ⟨?_, ?_, ?_⟩
  · simp [recognizeWithFR, hnf]
  · simp [recognizeFrameFR, hnf]
  · simp [recognizeFrameCV, hcv, himg]

/-- Environment where every path exists and decodes but no image
contains a detectable face. -/
def envNoFaces : Env where
  fileExists := fun _ => true
  faceEncodings := fun _ => none
  detectEncodings := fun _ => []
  dist := fun _ _ => 0
  imreadOk := fun _ => true
  detectFaces := fun _ => []
  predict := fun _ => (0, 0)

theorem C9_zero_faces_forms_witness :
    recognizeWithFR envNoFaces initialState "frame.jpg" =
      ⟨false, some "No face detected", none⟩ ∧
    recognizeFrameFR envNoFaces initialState "frame.jpg" =
      ⟨true, none, some []⟩ := by
  have h := C9_zero_faces_forms envNoFaces initialState "frame.jpg" rfl rfl rfl
  exact ⟨h.1, h.2.1⟩
